import Mathlib

/-!
Verification development for the Google Chat sidecar's adaptive poller and
message store.  The definitions below are a shallow embedding of the Python
sources `src/poller.py`, `src/db.py`, `src/main.py` and `src/chat_api.py`:

* SQLite `TEXT` columns become `String`, compared with the byte-wise
  (codepoint-wise) ordering SQLite uses for `TEXT`, embedded here as
  `textLt`/`strLt`/`strLe` over the underlying character lists.
* The `messages` table becomes a `List Message` (rows in insertion order,
  `id` is the primary key), the `state` and `auth` key-value tables become
  association lists, and the sqlite3 connection's cumulative
  `total_changes` counter becomes the `totalChanges` field.
* `time.monotonic()` readings become `Nat` arguments supplied to each
  operation; `datetime.now(timezone.utc).isoformat()` readings become
  `String` arguments.
* The remote Google Chat service is an oracle: either the full message list
  of the space (`list_messages`), or an abstract fetch function
  `Option String → Except FetchError (List MsgInput)` where
  `FetchError.notAuthenticated` models the `RuntimeError` raised by
  `_get_service` and `FetchError.other` models any other exception.
* Python exceptions become `Except`; a `try/except` becomes a `match`.
-/

namespace Sidecar

/-- Byte-wise lexicographic strict ordering on character lists: the ordering
SQLite applies to `TEXT` values (`memcmp` on the UTF-8 encoding, embedded
here on codepoints, which agrees with byte order for the ASCII ISO-8601
timestamps the sidecar stores). -/
def textLt : List Char → List Char → Bool
  | [], [] => false
  | [], _ :: _ => true
  | _ :: _, [] => false
  | a :: as, b :: bs =>
    if a.toNat < b.toNat then true
    else if b.toNat < a.toNat then false
    else textLt as bs

/-- SQL `a < b` on two `TEXT` values. -/
def strLt (a b : String) : Bool := textLt a.data b.data

/-- SQL `a <= b` on two `TEXT` values. -/
def strLe (a b : String) : Bool := !(strLt b a)

/-- A row of the `messages` table (`db.py`, `SCHEMA`): all columns are
`TEXT`, `id` is the primary key. -/
structure Message where
  id : String
  sender_name : String
  sender_email : String
  text : String
  created_at : String
  fetched_at : String
deriving DecidableEq, Repr

/-- A message dict as handed to `Database.upsert_messages` (produced by
`chat_api._normalize`): the same fields minus `fetched_at`, which the store
fills in with its own clock reading. -/
structure MsgInput where
  id : String
  sender_name : String
  sender_email : String
  text : String
  created_at : String
deriving DecidableEq, Repr

/-- The SQLite database of `db.py`: the `messages` table, the `state` and
`auth` key-value tables, and the connection's cumulative `total_changes`
counter (used by `upsert_messages`). -/
structure Database where
  messages : List Message
  state : List (String × String)
  auth : List (String × String)
  totalChanges : Nat
deriving DecidableEq, Repr

/-- A freshly created `Database` (`Database.__init__`): the schema creates
empty tables, and DDL does not count towards `total_changes`. -/
def Database.empty : Database := ⟨[], [], [], 0⟩

/-- `Database.get_state`: `SELECT value FROM state WHERE key = ?`. -/
def get_state (db : Database) (key : String) : Option String :=
  (db.state.find? (fun kv => kv.1 == key)).map (·.2)

/-- `Database.set_state`: `INSERT OR REPLACE INTO state (key, value)`.
The conflicting row (if any) is replaced; the insert counts one change
towards `total_changes` (SQLite does not count rows removed by `REPLACE`
conflict resolution). -/
def set_state (db : Database) (key value : String) : Database :=
  { db with
    state := db.state.filter (fun kv => kv.1 != key) ++ [(key, value)]
    totalChanges := db.totalChanges + 1 }

/-- One `INSERT OR IGNORE INTO messages` statement: if a row with the same
`id` exists the statement is ignored (no change), otherwise the row is
appended and `total_changes` increases by one. -/
def insertOrIgnoreMessage (db : Database) (m : Message) : Database :=
  if db.messages.any (fun r => r.id == m.id) then db
  else { db with
         messages := db.messages ++ [m]
         totalChanges := db.totalChanges + 1 }

/-- Builds the row inserted by `Database.upsert_messages` for one input
dict: `fetched_at` is the store's wall-clock reading `now`. -/
def mkMessage (now : String) (m : MsgInput) : Message :=
  ⟨m.id, m.sender_name, m.sender_email, m.text, m.created_at, now⟩

/-- `Database.upsert_messages`: one `INSERT OR IGNORE` per input message,
accumulating `inserted += self.conn.total_changes` after each statement
(the cumulative connection counter, as in the source — the comment there
reads "rough; good enough").  Returns the new database and the value of
`inserted`.  The `except sqlite3.IntegrityError` in the source is
unreachable under `OR IGNORE` for the data modelled here.  Note the
function is total: upserting never raises. -/
def upsert_messages (now : String) (db : Database) (msgs : List MsgInput) :
    Database × Nat :=
  msgs.foldl
    (fun acc m =>
      let db' := insertOrIgnoreMessage acc.1 (mkMessage now m)
      (db', acc.2 + db'.totalChanges))
    (db, 0)

/-- The `since` WHERE clause of `Database.get_messages`: the clause
`created_at > ?` is added only when `since` is truthy in Python (present
and non-empty). -/
def passesSince (since : Option String) (m : Message) : Bool :=
  match since with
  | some ts => if ts = "" then true else strLt ts m.created_at
  | none => true

/-- One step of SQLite `LIKE` matching: does the pattern match a prefix of
the text, character by character, ASCII-case-insensitively? -/
def likeAt : List Char → List Char → Bool
  | [], _ => true
  | _ :: _, [] => false
  | p :: ps, c :: cs => (p.toLower.toNat == c.toLower.toNat) && likeAt ps cs

/-- SQLite `LIKE '%pat%'`: the pattern occurs somewhere in the text,
ASCII-case-insensitively. -/
def likeSub : List Char → List Char → Bool
  | p, [] => likeAt p []
  | p, c :: cs => likeAt p (c :: cs) || likeSub p cs

/-- The `sender` WHERE clause of `Database.get_messages`: the clause
`sender_name LIKE ?` with pattern `%sender%` is added only when `sender`
is truthy in Python (present and non-empty). -/
def passesSender (sender : Option String) (m : Message) : Bool :=
  match sender with
  | some p => if p = "" then true else likeSub p.data m.sender_name.data
  | none => true

/-- The comparison used by `ORDER BY created_at ASC`. -/
def msgLe (a b : Message) : Prop := strLe a.created_at b.created_at = true

instance : DecidableRel msgLe := fun a b => by unfold msgLe; infer_instance

/-- `Database.get_messages`: `SELECT * FROM messages [WHERE ...] ORDER BY
created_at ASC LIMIT ?` — filter, sort ascending by `created_at`, truncate
to `limit` rows.  Parameter defaults in the source are `since=None`,
`limit=100`, `sender=None`. -/
def get_messages (db : Database) (since : Option String) (limit : Nat)
    (sender : Option String) : List Message :=
  (List.insertionSort msgLe
      (db.messages.filter (fun m => passesSince since m && passesSender sender m))).take
    limit

/-- `Database.get_unread_messages`: messages since the last read marker
when one is set (Python truthiness: a present but empty marker counts as
unset), otherwise the first 50 rows in `created_at` order (the source
comment says "last 50" but the query orders ascending). -/
def get_unread_messages (db : Database) : List Message :=
  match get_state db "read_marker" with
  | some marker =>
      if marker = "" then get_messages db none 50 none
      else get_messages db (some marker) 500 none
  | none => get_messages db none 50 none

/-- `Database.mark_read`: advance the read marker, defaulting to the
wall-clock reading `now` when the argument is absent or falsy (Python
`timestamp or ...`).  Returns the new database and the marker written. -/
def mark_read (now : String) (timestamp : Option String) (db : Database) :
    Database × String :=
  let ts := match timestamp with
    | some t => if t = "" then now else t
    | none => now
  (set_state db "read_marker" ts, ts)

/-- `Database.message_count`: `SELECT COUNT(*) FROM messages`. -/
def message_count (db : Database) : Nat := db.messages.length

/-- Auxiliary maximum under the SQLite `TEXT` ordering. -/
def tmax (a b : String) : String := if strLe a b then b else a

/-- `Database.latest_message_time`: `SELECT created_at FROM messages ORDER
BY created_at DESC LIMIT 1` — the maximum `created_at` over all rows, or
`none` for an empty table. -/
def latest_message_time (db : Database) : Option String :=
  match db.messages.map (·.created_at) with
  | [] => none
  | t :: ts => some (ts.foldl tmax t)

/-- `Database.unread_count`: rows with `created_at > marker` when a marker
is set (Python truthiness again), else `COUNT(*)`. -/
def unread_count (db : Database) : Nat :=
  match get_state db "read_marker" with
  | some marker =>
      if marker = "" then db.messages.length
      else (db.messages.filter (fun m => strLt marker m.created_at)).length
  | none => db.messages.length

/-- `poller.PollMode`. -/
inductive PollMode where
  | idle
  | active
deriving DecidableEq, Repr

/-- The mutable fields of `poller.Poller` relevant to the state machine:
`_mode` and `_last_skill_touch` (a `time.monotonic()` reading, `0.0`
meaning "never touched"). -/
structure PollerState where
  mode : PollMode
  lastSkillTouch : Nat
deriving DecidableEq, Repr

/-- `Poller.__init__`: starts in `IDLE` with `_last_skill_touch = 0.0`. -/
def PollerState.start : PollerState := ⟨PollMode.idle, 0⟩

/-- `Poller.touch`, with `now` the `time.monotonic()` reading taken at the
call: store the reading, then boost to `ACTIVE` if not already there. -/
def Poller.touch (now : Nat) (p : PollerState) : PollerState :=
  let p' := { p with lastSkillTouch := now }
  if p'.mode ≠ PollMode.active then { p' with mode := PollMode.active } else p'

/-- The three polling settings of `config.py` (`POLL_ACTIVE_INTERVAL`,
`POLL_IDLE_INTERVAL`, `POLL_DECAY_TIMEOUT`), in seconds. -/
structure Config where
  activeInterval : Nat
  idleInterval : Nat
  decayTimeout : Nat
deriving DecidableEq, Repr

/-- The defaults: 30 s active, 14400 s idle, 600 s decay. -/
def Config.default : Config := ⟨30, 14400, 600⟩

/-- `Poller._current_interval`. -/
def current_interval (cfg : Config) (p : PollerState) : Nat :=
  if p.mode = PollMode.active then cfg.activeInterval else cfg.idleInterval

/-- The decay check at the top of each `Poller._loop` iteration, with `now`
the tick's `time.monotonic()` reading and `interval` the value just
computed by `_current_interval`: while `ACTIVE` with a recorded touch, an
elapsed time beyond the decay timeout drops the mode to `IDLE` and
overrides this tick's sleep interval with the idle interval. -/
def decayCheck (cfg : Config) (now : Nat) (p : PollerState) (interval : Nat) :
    PollerState × Nat :=
  if p.mode = PollMode.active ∧ 0 < p.lastSkillTouch then
    let elapsed := now - p.lastSkillTouch
    if cfg.decayTimeout < elapsed then
      ({ p with mode := PollMode.idle }, cfg.idleInterval)
    else (p, interval)
  else (p, interval)

/-- The two ways the remote fetch can fail: `notAuthenticated` models the
`RuntimeError` raised by `chat_api._get_service` when no credentials are
stored; `other` models any other exception (network, remote API). -/
inductive FetchError where
  | notAuthenticated
  | other
deriving DecidableEq, Repr

/-- A raw message of the remote space as returned by the Google Chat API
(the fields `chat_api._normalize` reads, with the API's defaults already
applied for missing keys). -/
structure RawMsg where
  name : String
  senderDisplayName : String
  senderEmail : String
  text : String
  createTime : String
deriving DecidableEq, Repr

/-- `chat_api._normalize`: flatten a raw API message into the internal
format. -/
def normalizeMsg (m : RawMsg) : MsgInput :=
  ⟨m.name, m.senderDisplayName, m.senderEmail, m.text, m.createTime⟩

/-- `chat_api.list_messages`, as a function of the remote space's content
(`space`, newest first, the order the API returns) and the `after` bound:
when `after` is present the code asks the API for `createTime > ts` (the
filter string built on lines 58-61), so the remote returns exactly the raw
messages strictly newer than the bound; pages are concatenated and the
final list is reversed to oldest-first.  The timestamp round-trip through
`datetime.fromisoformat`/`strftime` is modelled as the identity on the
timestamp string. -/
def list_messages (space : List RawMsg) (after : Option String) :
    List MsgInput :=
  let filtered : List RawMsg := match after with
    | some ts => space.filter (fun m => strLt ts m.createTime)
    | none => space
  (filtered.map normalizeMsg).reverse

/-- `main.poll_fn`, over an abstract fetch oracle standing for
`chat_api.list_messages` applied to the live remote: compute the derived
poll cursor (`latest_message_time`), fetch with that bound, silently treat
`notAuthenticated` (the caught `RuntimeError`) as zero new messages, let
any other exception propagate to the caller, skip the upsert when nothing
was fetched, and otherwise upsert the batch.  Returns the updated database
and the inserted count. -/
def poll_fn (fetch : Option String → Except FetchError (List MsgInput))
    (wallNow : String) (db : Database) : Except FetchError (Database × Nat) :=
  match fetch (latest_message_time db) with
  | Except.error FetchError.notAuthenticated => Except.ok (db, 0)
  | Except.error e => Except.error e
  | Except.ok msgs =>
      if msgs.isEmpty then Except.ok (db, 0)
      else Except.ok (upsert_messages wallNow db msgs)

/-- The shared state a loop iteration works on: the poller's fields plus
the database. -/
structure SysState where
  poller : PollerState
  db : Database
deriving DecidableEq, Repr

/-- The system state right after `main.lifespan` constructs the `Database`
and the `Poller`. -/
def SysState.start : SysState := ⟨PollerState.start, Database.empty⟩

/-- One iteration of `Poller._loop`, with `now` the tick's
`time.monotonic()` reading and `wallNow` its wall-clock reading: compute
the interval, run the decay check, then run `poll_fn` under the loop's
`try` — on a normal return record `last_poll_at`, on an exception log and
swallow it (the database is left as the failing `poll_fn` left it, which
for a fetch exception is unchanged).  Returns the new state and the number
of seconds the tick then sleeps.  The function is total: no exception
leaves the loop body. -/
def tick (cfg : Config)
    (fetch : Option String → Except FetchError (List MsgInput))
    (now : Nat) (wallNow : String) (s : SysState) : SysState × Nat :=
  let interval := current_interval cfg s.poller
  let pi := decayCheck cfg now s.poller interval
  let db' := match poll_fn fetch wallNow s.db with
    | Except.ok (db2, _newCount) => set_state db2 "last_poll_at" wallNow
    | Except.error _ => s.db
  (⟨pi.1, db'⟩, pi.2)

/-- An observable event of the running sidecar: a `touch()` call (with its
monotonic-clock reading) or a loop tick (with its clock readings and the
remote fetch oracle in effect for that tick). -/
inductive Event where
  | touch (now : Nat)
  | tick (now : Nat) (wallNow : String)
      (fetch : Option String → Except FetchError (List MsgInput))

/-- Apply one event to the system state. -/
def step (cfg : Config) (s : SysState) : Event → SysState
  | Event.touch n => { s with poller := Poller.touch n s.poller }
  | Event.tick n w f => (tick cfg f n w s).1

/-- Run the sidecar from construction through a sequence of events. -/
def run (cfg : Config) (es : List Event) : SysState :=
  es.foldl (step cfg) SysState.start

/-- Concrete message input used by witnesses and counterexamples. -/
def sampleMsg : MsgInput := ⟨"spaces/x/messages/1", "Ann", "", "hi", "2024-01-01T00:00:00Z"⟩

/-- A store holding 51 rows with pairwise distinct ids and no state rows:
witness input for the unread-query bound. -/
def wideDb : Database :=
  { messages :=
      (List.range 51).map
        (fun i => ⟨String.mk (List.replicate i 'a'), "Ann", "", "hi",
                   "2024-01-01T00:00:00Z", "2024-01-02T00:00:00Z"⟩)
    state := []
    auth := []
    totalChanges := 51 }

/-! ### Order theory for the SQLite `TEXT` comparison -/

theorem textLt_irrefl (as : List Char) : textLt as as = false := by
  induction as with
  | nil => rfl
  | cons a as ih => simp [textLt, ih]

theorem textLt_asymm : ∀ as bs, textLt as bs = true → textLt bs as = false := by
  intro as
  induction as with
  | nil =>
    intro bs h
    cases bs with
    | nil => simp [textLt] at h
    | cons b bs => rfl
  | cons a as ih =>
    intro bs h
    cases bs with
    | nil => simp [textLt] at h
    | cons b bs =>
      simp only [textLt] at h ⊢
      rcases Nat.lt_trichotomy a.toNat b.toNat with h1 | h1 | h1
      · simp [h1, Nat.lt_asymm h1]
      · simp [h1, Nat.lt_irrefl] at h ⊢
        exact ih bs h
      · simp [h1, Nat.lt_asymm h1] at h

theorem textLt_false_trans :
    ∀ as bs cs, textLt as bs = false → textLt bs cs = false → textLt as cs = false := by
  intro as
  induction as with
  | nil =>
    intro bs cs h1 h2
    cases bs with
    | nil =>
      cases cs with
      | nil => rfl
      | cons c cs => simp [textLt] at h2
    | cons b bs => simp [textLt] at h1
  | cons a as ih =>
    intro bs cs h1 h2
    cases bs with
    | nil =>
      cases cs with
      | nil => rfl
      | cons c cs => simp [textLt] at h2
    | cons b bs =>
      cases cs with
      | nil => rfl
      | cons c cs =>
        simp only [textLt] at h1 h2 ⊢
        rcases Nat.lt_trichotomy a.toNat b.toNat with hab | hab | hab
        · simp [hab] at h1
        · rcases Nat.lt_trichotomy b.toNat c.toNat with hbc | hbc | hbc
          · simp [hbc] at h2
          · have hac : a.toNat = c.toNat := hab.trans hbc
            simp [hab, Nat.lt_irrefl] at h1
            simp [hbc, Nat.lt_irrefl] at h2
            simp [hac, Nat.lt_irrefl]
            exact ih bs cs h1 h2
          · have hca : c.toNat < a.toNat := hab ▸ hbc
            simp [Nat.lt_asymm hca, hca]
        · rcases Nat.lt_trichotomy b.toNat c.toNat with hbc | hbc | hbc
          · simp [hbc] at h2
          · have hca : c.toNat < a.toNat := hbc ▸ hab
            simp [Nat.lt_asymm hca, hca]
          · have hca : c.toNat < a.toNat := hbc.trans hab
            simp [Nat.lt_asymm hca, hca]

theorem strLt_asymm (a b : String) (h : strLt a b = true) : strLt b a = false :=
  textLt_asymm _ _ h

theorem strLt_irrefl (a : String) : strLt a a = false := textLt_irrefl _

theorem strLe_refl (a : String) : strLe a a = true := by
  simp [strLe, strLt_irrefl]

theorem strLe_total (a b : String) : strLe a b = true ∨ strLe b a = true := by
  unfold strLe
  cases h : strLt b a with
  | false => exact Or.inl rfl
  | true => exact Or.inr (by simp [strLt_asymm _ _ h])

theorem strLe_of_not_le {a b : String} (h : strLe a b = false) : strLe b a = true := by
  rcases strLe_total a b with h' | h'
  · rw [h] at h'; cases h'
  · exact h'

theorem strLe_trans {a b c : String} (h1 : strLe a b = true) (h2 : strLe b c = true) :
    strLe a c = true := by
  unfold strLe at h1 h2 ⊢
  simp only [Bool.not_eq_true'] at h1 h2 ⊢
  exact textLt_false_trans _ _ _ h2 h1

theorem strLe_of_lt {a b : String} (h : strLt a b = true) : strLe a b = true := by
  unfold strLe
  simp [strLt_asymm _ _ h]

instance : IsTrans Message msgLe :=
  ⟨fun _ _ _ h1 h2 => strLe_trans h1 h2⟩

instance : IsTotal Message msgLe :=
  ⟨fun a b => strLe_total a.created_at b.created_at⟩

theorem strLe_tmax_left (a b : String) : strLe a (tmax a b) = true := by
  unfold tmax
  by_cases h : strLe a b = true
  · simp [h]
  · simp [Bool.not_eq_true] at h
    simp [h, strLe_refl]

theorem strLe_tmax_right (a b : String) : strLe b (tmax a b) = true := by
  unfold tmax
  by_cases h : strLe a b = true
  · simp [h, strLe_refl]
  · simp [Bool.not_eq_true] at h
    simp [h, strLe_of_not_le h]

theorem tmax_cases (a b : String) : tmax a b = a ∨ tmax a b = b := by
  unfold tmax
  by_cases h : strLe a b = true
  · simp [h]
  · simp [Bool.not_eq_true] at h
    simp [h]

theorem foldl_tmax_le :
    ∀ (ts : List String) (t x : String), (x = t ∨ x ∈ ts) →
      strLe x (ts.foldl tmax t) = true := by
  intro ts
  induction ts with
  | nil =>
    intro t x hx
    rcases hx with rfl | hx
    · exact strLe_refl x
    · cases hx
  | cons y ys ih =>
    intro t x hx
    simp only [List.foldl_cons]
    rcases hx with rfl | hx
    · exact strLe_trans (strLe_tmax_left x y) (ih (tmax x y) _ (Or.inl rfl))
    · rcases List.mem_cons.mp hx with rfl | hx
      · exact strLe_trans (strLe_tmax_right t x) (ih (tmax t x) _ (Or.inl rfl))
      · exact ih (tmax t y) x (Or.inr hx)

theorem foldl_tmax_mem :
    ∀ (ts : List String) (t : String), ts.foldl tmax t = t ∨ ts.foldl tmax t ∈ ts := by
  intro ts
  induction ts with
  | nil => intro t; exact Or.inl rfl
  | cons y ys ih =>
    intro t
    simp only [List.foldl_cons]
    rcases ih (tmax t y) with h | h
    · rcases tmax_cases t y with h' | h'
      · exact Or.inl (h.trans h')
      · exact Or.inr (by rw [h, h']; exact List.mem_cons_self y ys)
    · exact Or.inr (List.mem_cons_of_mem y h)

/-! ### Key-value state lemmas -/

theorem find_filter_ne (l : List (String × String)) (k k' : String) (h : k' ≠ k) :
    (l.filter (fun kv => kv.1 != k)).find? (fun kv => kv.1 == k') =
      l.find? (fun kv => kv.1 == k') := by
  induction l with
  | nil => rfl
  | cons x xs ih =>
    by_cases hx : x.1 = k'
    · have hk : (x.1 != k) = true := by
        simp [bne_iff_ne, hx, h]
      have hk' : (x.1 == k') = true := by simp [hx]
      simp [List.filter_cons, hk, List.find?_cons, hk']
    · have hx' : (x.1 == k') = false := by simp [hx]
      by_cases hk : (x.1 != k) = true
      · simp [List.filter_cons, hk, List.find?_cons, hx', ih]
      · simp [List.filter_cons, hk, List.find?_cons, hx', ih]

theorem get_state_set_ne (db : Database) (k v k' : String) (h : k' ≠ k) :
    get_state (set_state db k v) k' = get_state db k' := by
  unfold get_state set_state
  simp only
  rw [List.find?_append, find_filter_ne _ _ _ h]
  have hkv : ((k, v).1 == k') = false := by
    simp only [beq_eq_false_iff_ne, ne_eq]
    intro hkk
    exact h hkk.symm
  cases hfind : db.state.find? (fun kv => kv.1 == k') with
  | none => simp [List.find?_cons, hkv]
  | some x => simp

theorem get_state_set_self (db : Database) (k v : String) :
    get_state (set_state db k v) k = some v := by
  unfold get_state set_state
  simp only
  rw [List.find?_append]
  have hnone : (db.state.filter (fun kv => kv.1 != k)).find? (fun kv => kv.1 == k) = none := by
    apply List.find?_eq_none.mpr
    intro x hx
    have := List.of_mem_filter hx
    simp [bne_iff_ne] at this
    simp [this]
  simp [hnone, List.find?_cons]

theorem insertOrIgnoreMessage_state (db : Database) (m : Message) :
    (insertOrIgnoreMessage db m).state = db.state := by
  unfold insertOrIgnoreMessage
  split <;> rfl

/-- The database component of the `upsert_messages` fold is insensitive to
the running `inserted` counter, and never touches the `state` table. -/
theorem upsert_fold_state (now : String) :
    ∀ (msgs : List MsgInput) (db : Database) (c : Nat),
      ((msgs.foldl
          (fun acc m =>
            let db' := insertOrIgnoreMessage acc.1 (mkMessage now m)
            (db', acc.2 + db'.totalChanges))
          (db, c)).1).state = db.state := by
  intro msgs
  induction msgs with
  | nil => intro db c; rfl
  | cons m ms ih =>
    intro db c
    simp only [List.foldl_cons]
    rw [ih]
    exact insertOrIgnoreMessage_state db (mkMessage now m)

theorem upsert_messages_state (now : String) (db : Database) (msgs : List MsgInput) :
    (upsert_messages now db msgs).1.state = db.state :=
  upsert_fold_state now msgs db 0

theorem get_state_upsert (now : String) (db : Database) (msgs : List MsgInput) (k : String) :
    get_state (upsert_messages now db msgs).1 k = get_state db k := by
  unfold get_state
  rw [upsert_messages_state]

/-! ### Projections of one loop iteration -/

theorem tick_poller (cfg : Config) (f : Option String → Except FetchError (List MsgInput))
    (now : Nat) (wall : String) (s : SysState) :
    (tick cfg f now wall s).1.poller =
      (decayCheck cfg now s.poller (current_interval cfg s.poller)).1 := rfl

theorem tick_interval (cfg : Config) (f : Option String → Except FetchError (List MsgInput))
    (now : Nat) (wall : String) (s : SysState) :
    (tick cfg f now wall s).2 =
      (decayCheck cfg now s.poller (current_interval cfg s.poller)).2 := rfl

theorem tick_db (cfg : Config) (f : Option String → Except FetchError (List MsgInput))
    (now : Nat) (wall : String) (s : SysState) :
    (tick cfg f now wall s).1.db =
      match poll_fn f wall s.db with
      | Except.ok (db2, _) => set_state db2 "last_poll_at" wall
      | Except.error _ => s.db := rfl

/-! ### Poller state-machine lemmas -/

/-- `touch()` always nets out to mode `ACTIVE` with the signal refreshed. -/
theorem Poller.touch_eq (m : Nat) (q : PollerState) :
    Poller.touch m q = ⟨PollMode.active, m⟩ := by
  cases q with
  | mk mo l => cases mo <;> simp [Poller.touch]

/-- One event preserves the invariant "ACTIVE implies a positive activity
signal", provided touch events carry positive monotonic readings. -/
theorem step_preserves_touch_inv (cfg : Config) (e : Event) (s : SysState)
    (hpos : ∀ n, e = Event.touch n → 0 < n)
    (hs : s.poller.mode = PollMode.active → 0 < s.poller.lastSkillTouch) :
    (step cfg s e).poller.mode = PollMode.active →
      0 < (step cfg s e).poller.lastSkillTouch := by
  cases e with
  | touch n =>
    intro _
    simp only [step, Poller.touch_eq]
    exact hpos n rfl
  | tick n w f =>
    have hp : (step cfg s (Event.tick n w f)).poller =
        (decayCheck cfg n s.poller (current_interval cfg s.poller)).1 := rfl
    rw [hp]
    unfold decayCheck
    by_cases h1 : s.poller.mode = PollMode.active ∧ 0 < s.poller.lastSkillTouch
    · simp only [if_pos h1]
      by_cases h2 : cfg.decayTimeout < n - s.poller.lastSkillTouch
      · simp only [if_pos h2]
        intro hact
        simp at hact
      · simp only [if_neg h2]
        intro _
        exact h1.2
    · simp only [if_neg h1]
      exact hs

/-- C1: For every sequence of touch() calls interleaved with loop ticks, the
poller's mode is ACTIVE immediately after any touch() returns, regardless of
the prior mode; each touch() also updates the activity signal to the current
monotonic time, and repeated touches while already ACTIVE leave the mode
ACTIVE (idempotent on mode, refreshing only the signal). -/
theorem touch_boosts_to_active (n n' : Nat) (p : PollerState) :
    (Poller.touch n p).mode = PollMode.active
    ∧ (Poller.touch n p).lastSkillTouch = n
    ∧ (Poller.touch n' (Poller.touch n p)).mode = PollMode.active
    ∧ (Poller.touch n' (Poller.touch n p)).lastSkillTouch = n' := by
  simp [Poller.touch_eq]

/-- C2: If the poller is ACTIVE and no touch() has occurred for longer than
POLL_DECAY_TIMEOUT, then the next loop tick transitions the mode to IDLE and
that same tick's subsequent sleep uses POLL_IDLE_INTERVAL; this decay check
is the only way the mode ever leaves ACTIVE (ticks while IDLE perform no
transition, and a tick whose decay guard fails leaves ACTIVE in place with
the ACTIVE interval). -/
theorem tick_decay_transition (cfg : Config)
    (f : Option String → Except FetchError (List MsgInput))
    (now : Nat) (wall : String) (s : SysState) :
    (s.poller.mode = PollMode.active → 0 < s.poller.lastSkillTouch →
       cfg.decayTimeout < now - s.poller.lastSkillTouch →
       (tick cfg f now wall s).1.poller.mode = PollMode.idle
       ∧ (tick cfg f now wall s).2 = cfg.idleInterval)
    ∧ (s.poller.mode = PollMode.idle →
       (tick cfg f now wall s).1.poller = s.poller
       ∧ (tick cfg f now wall s).2 = cfg.idleInterval)
    ∧ (s.poller.mode = PollMode.active →
       ¬(0 < s.poller.lastSkillTouch ∧ cfg.decayTimeout < now - s.poller.lastSkillTouch) →
       (tick cfg f now wall s).1.poller = s.poller
       ∧ (tick cfg f now wall s).2 = cfg.activeInterval) := by
  refine ⟨?_, ?_, ?_⟩
  · intro hm hl hd
    constructor
    · rw [tick_poller]
      unfold decayCheck
      simp [hm, hl, hd]
    · rw [tick_interval]
      unfold decayCheck
      simp [hm, hl, hd]
  · intro hm
    constructor
    · rw [tick_poller]
      unfold decayCheck
      simp [hm]
    · rw [tick_interval]
      unfold decayCheck current_interval
      simp [hm]
  · intro hm hnd
    by_cases hl : 0 < s.poller.lastSkillTouch
    · have hd : ¬ cfg.decayTimeout < now - s.poller.lastSkillTouch := by
        intro hd
        exact hnd ⟨hl, hd⟩
      constructor
      · rw [tick_poller]
        unfold decayCheck
        simp [hm, hl, hd]
      · rw [tick_interval]
        unfold decayCheck current_interval
        simp [hm, hl, hd]
    · constructor
      · rw [tick_poller]
        unfold decayCheck
        simp [hm, hl]
      · rw [tick_interval]
        unfold decayCheck current_interval
        simp [hm, hl]

/-- Witness for C2 at the default configuration: `touch` recorded at 1,
tick at 700 (elapsed 699 > 600) decays to IDLE and sleeps 14400 s; also a
tick at 100 (elapsed 99) leaves ACTIVE in place. -/
theorem tick_decay_transition_witness :
    (tick Config.default (fun _ => Except.ok []) 700 "w"
        ⟨⟨PollMode.active, 1⟩, Database.empty⟩).1.poller.mode = PollMode.idle
    ∧ (tick Config.default (fun _ => Except.ok []) 700 "w"
        ⟨⟨PollMode.active, 1⟩, Database.empty⟩).2 = 14400
    ∧ (tick Config.default (fun _ => Except.ok []) 100 "w"
        ⟨⟨PollMode.active, 1⟩, Database.empty⟩).1.poller = ⟨PollMode.active, 1⟩ := by
  have h1 := (tick_decay_transition Config.default (fun _ => Except.ok []) 700 "w"
    ⟨⟨PollMode.active, 1⟩, Database.empty⟩).1 rfl (by decide) (by decide)
  have h2 := (tick_decay_transition Config.default (fun _ => Except.ok []) 100 "w"
    ⟨⟨PollMode.active, 1⟩, Database.empty⟩).2.2 rfl (by decide)
  exact ⟨h1.1, h1.2, h2.1⟩

/-- C3: a tick whose fetch raises swallows the error: the tick still returns
a state and an interval (the function is total), the resulting poller state
and sleep interval are exactly those computed by the decay check — the same
as under any other fetch outcome — and a genuinely raising fetch (an
exception other than the not-authenticated RuntimeError, which poll_fn
catches) leaves the database untouched, so the failure cannot affect the
next tick's scheduling. -/
theorem tick_fetch_error_isolated (cfg : Config)
    (f : Option String → Except FetchError (List MsgInput))
    (now : Nat) (wall : String) (s : SysState) (err : FetchError)
    (h : f (latest_message_time s.db) = Except.error err) :
    (tick cfg f now wall s).1.poller =
      (decayCheck cfg now s.poller (current_interval cfg s.poller)).1
    ∧ (tick cfg f now wall s).2 =
      (decayCheck cfg now s.poller (current_interval cfg s.poller)).2
    ∧ (∀ g, (tick cfg g now wall s).1.poller = (tick cfg f now wall s).1.poller
          ∧ (tick cfg g now wall s).2 = (tick cfg f now wall s).2)
    ∧ (err = FetchError.other → (tick cfg f now wall s).1.db = s.db) := by
  refine ⟨tick_poller cfg f now wall s, tick_interval cfg f now wall s, ?_, ?_⟩
  · intro g
    exact ⟨rfl, rfl⟩
  · intro herr
    subst herr
    have hp : poll_fn f wall s.db = Except.error FetchError.other := by
      unfold poll_fn
      rw [h]
    rw [tick_db, hp]

/-- Witness for C3: a fetch that raises a non-auth error at the start state
leaves the database exactly as it was and sleeps the idle interval. -/
theorem tick_fetch_error_isolated_witness :
    (tick Config.default (fun _ => Except.error FetchError.other) 0 "w"
        SysState.start).1.db = Database.empty
    ∧ (tick Config.default (fun _ => Except.error FetchError.other) 0 "w"
        SysState.start).2 = 14400 := by
  have h := tick_fetch_error_isolated Config.default
    (fun _ => Except.error FetchError.other) 0 "w" SysState.start FetchError.other rfl
  exact ⟨h.2.2.2 rfl, h.2.1⟩

/-- C9: invariant of every reachable poller state under any interleaving of
touch() calls and loop ticks: a freshly constructed poller is IDLE with the
activity signal at zero, and whenever the mode is ACTIVE the last-touch
activity signal is strictly positive (touch events carry positive monotonic
readings), so the decay check's last-touch guard is always satisfied when
the mode is ACTIVE. -/
theorem poller_active_implies_touched :
    (SysState.start.poller.mode = PollMode.idle
      ∧ SysState.start.poller.lastSkillTouch = 0)
    ∧ ∀ (cfg : Config) (es : List Event),
        (∀ n, Event.touch n ∈ es → 0 < n) →
        ((run cfg es).poller.mode = PollMode.active →
          0 < (run cfg es).poller.lastSkillTouch) := by
  refine ⟨⟨rfl, rfl⟩, ?_⟩
  intro cfg es
  suffices h : ∀ (es : List Event) (s : SysState),
      (s.poller.mode = PollMode.active → 0 < s.poller.lastSkillTouch) →
      (∀ n, Event.touch n ∈ es → 0 < n) →
      ((es.foldl (step cfg) s).poller.mode = PollMode.active →
        0 < (es.foldl (step cfg) s).poller.lastSkillTouch) by
    intro hpos
    exact h es SysState.start (by intro hc; exact absurd hc (by decide)) hpos
  intro es
  induction es with
  | nil =>
    intro s hs _
    exact hs
  | cons e rest ih =>
    intro s hs hpos
    simp only [List.foldl_cons]
    apply ih
    · apply step_preserves_touch_inv cfg e s
      · intro n hn
        apply hpos n
        rw [hn]
        exact List.mem_cons_self _ _
      · exact hs
    · intro n hn
      exact hpos n (List.mem_cons_of_mem e hn)

/-- Witness for C9: after a touch at 5 and a tick at 100 the mode is still
ACTIVE and the signal is positive. -/
theorem poller_active_implies_touched_witness :
    0 < (run Config.default
          [Event.touch 5, Event.tick 100 "w" (fun _ => Except.ok [])]).poller.lastSkillTouch := by
  apply poller_active_implies_touched.2 Config.default
    [Event.touch 5, Event.tick 100 "w" (fun _ => Except.ok [])]
  · intro n hn
    rcases List.mem_cons.mp hn with h | hn2
    · injection h with h1
      omega
    · rcases List.mem_cons.mp hn2 with h | h3
      · exact Event.noConfusion h
      · cases h3
  · rfl

/-! ### Read-marker and last-poll state -/

/-- `poll_fn` never writes the key-value state: any key reads the same
before and after a normally returning poll. -/
theorem poll_fn_state_frame (f : Option String → Except FetchError (List MsgInput))
    (w : String) (db db' : Database) (k : Nat)
    (h : poll_fn f w db = Except.ok (db', k)) :
    ∀ key, get_state db' key = get_state db key := by
  intro key
  unfold poll_fn at h
  cases hf : f (latest_message_time db) with
  | error e =>
    rw [hf] at h
    cases e with
    | notAuthenticated =>
      simp only [Except.ok.injEq, Prod.mk.injEq] at h
      rw [← h.1]
    | other => simp at h
  | ok msgs =>
    rw [hf] at h
    cases hemp : msgs.isEmpty with
    | true =>
      simp [hemp] at h
      rw [← h.1]
    | false =>
      simp [hemp] at h
      have hdb : db' = (upsert_messages w db msgs).1 := by rw [h]
      rw [hdb]
      exact get_state_upsert w db msgs key

/-- C7: the read marker is absent until the first explicit mark-read call;
it is advanced exactly by mark-read (to the explicit timestamp, defaulting
to the wall clock); and neither a loop tick, nor poll_fn, nor an upsert
ever modifies the read-marker state slot. -/
theorem read_marker_only_explicit :
    get_state Database.empty "read_marker" = none
    ∧ (∀ (now : String) (ts : Option String) (db : Database),
        get_state (mark_read now ts db).1 "read_marker" =
          some (mark_read now ts db).2)
    ∧ (∀ (cfg : Config) (f : Option String → Except FetchError (List MsgInput))
        (n : Nat) (w : String) (s : SysState),
        get_state (tick cfg f n w s).1.db "read_marker" =
          get_state s.db "read_marker")
    ∧ (∀ (f : Option String → Except FetchError (List MsgInput)) (w : String)
        (db db' : Database) (k : Nat),
        poll_fn f w db = Except.ok (db', k) →
        get_state db' "read_marker" = get_state db "read_marker")
    ∧ (∀ (now : String) (db : Database) (msgs : List MsgInput),
        get_state (upsert_messages now db msgs).1 "read_marker" =
          get_state db "read_marker") := by
  refine ⟨rfl, ?_, ?_, ?_, ?_⟩
  · intro now ts db
    exact get_state_set_self db "read_marker" _
  · intro cfg f n w s
    rw [tick_db]
    cases hp : poll_fn f w s.db with
    | error e => rfl
    | ok p =>
      obtain ⟨db2, k⟩ := p
      have h1 : get_state (set_state db2 "last_poll_at" w) "read_marker" =
          get_state db2 "read_marker" :=
        get_state_set_ne db2 "last_poll_at" w "read_marker" (by decide)
      rw [h1]
      exact poll_fn_state_frame f w s.db db2 k hp "read_marker"
  · intro f w db db' k h
    exact poll_fn_state_frame f w db db' k h "read_marker"
  · intro now db msgs
    exact get_state_upsert now db msgs "read_marker"

/-- Witness for C7: marking read with an explicit timestamp stores it, and
a tick over a fresh store leaves the marker absent. -/
theorem read_marker_only_explicit_witness :
    get_state (mark_read "2024-01-03T00:00:00Z" (some "2024-01-02T00:00:00Z")
        Database.empty).1 "read_marker" = some "2024-01-02T00:00:00Z"
    ∧ get_state (tick Config.default (fun _ => Except.ok [sampleMsg]) 0 "W"
        SysState.start).1.db "read_marker" = none := by
  constructor
  · exact read_marker_only_explicit.2.1 "2024-01-03T00:00:00Z"
      (some "2024-01-02T00:00:00Z") Database.empty
  · have h := read_marker_only_explicit.2.2.1 Config.default
      (fun _ => Except.ok [sampleMsg]) 0 "W" SysState.start
    rw [h]
    rfl

/-- Counterexample for C8 as stated: with no credentials (the fetch raises
the not-authenticated RuntimeError) a tick over a fresh store nevertheless
records `last_poll_at`, because `poll_fn` catches the RuntimeError and
returns zero, so the loop's success path runs. -/
theorem tick_notauth_records_last_poll_cex :
    get_state (tick Config.default (fun _ => Except.error FetchError.notAuthenticated)
        0 "W" SysState.start).1.db "last_poll_at" = some "W"
    ∧ get_state SysState.start.db "last_poll_at" = none := by
  exact ⟨rfl, rfl⟩

/-- C8 (amended): a tick records `last_poll_at` exactly when `poll_fn`
returns normally; on fetch success the messages are upserted (none when the
batch is empty) and `last_poll_at` is recorded; on a fetch exception other
than not-authenticated the tick swallows it and changes neither the
database nor the last-poll state; in the not-authenticated case the error
is caught inside `poll_fn`, which reports zero new messages, so the tick
stores no message but does record `last_poll_at`; the poller's mode is
unchanged by the fetch outcome in every case. -/
theorem tick_poll_recording (cfg : Config)
    (f : Option String → Except FetchError (List MsgInput))
    (now : Nat) (wall : String) (s : SysState) :
    (∀ msgs, f (latest_message_time s.db) = Except.ok msgs →
      (tick cfg f now wall s).1.db =
        set_state (if msgs.isEmpty then s.db else (upsert_messages wall s.db msgs).1)
          "last_poll_at" wall)
    ∧ (f (latest_message_time s.db) = Except.error FetchError.other →
        (tick cfg f now wall s).1.db = s.db)
    ∧ (f (latest_message_time s.db) = Except.error FetchError.notAuthenticated →
        (tick cfg f now wall s).1.db = set_state s.db "last_poll_at" wall
        ∧ (tick cfg f now wall s).1.db.messages = s.db.messages)
    ∧ (∀ g, (tick cfg g now wall s).1.poller = (tick cfg f now wall s).1.poller
          ∧ (tick cfg g now wall s).2 = (tick cfg f now wall s).2) := by
  refine ⟨?_, ?_, ?_, ?_⟩
  · intro msgs h
    have hp : poll_fn f wall s.db =
        if msgs.isEmpty then Except.ok (s.db, 0)
        else Except.ok (upsert_messages wall s.db msgs) := by
      unfold poll_fn
      rw [h]
    rw [tick_db, hp]
    cases hemp : msgs.isEmpty with
    | true => simp [hemp]
    | false => simp [hemp]
  · intro h
    have hp : poll_fn f wall s.db = Except.error FetchError.other := by
      unfold poll_fn
      rw [h]
    rw [tick_db, hp]
  · intro h
    have hp : poll_fn f wall s.db = Except.ok (s.db, 0) := by
      unfold poll_fn
      rw [h]
    constructor
    · rw [tick_db, hp]
    · rw [tick_db, hp]
      rfl
  · intro g
    exact ⟨rfl, rfl⟩

/-- Witness for C8: a successful fetch of one message upserts it and
records the tick's wall-clock reading under `last_poll_at`. -/
theorem tick_poll_recording_witness :
    (tick Config.default (fun _ => Except.ok [sampleMsg]) 0 "W" SysState.start).1.db =
      set_state (upsert_messages "W" Database.empty [sampleMsg]).1 "last_poll_at" "W" := by
  have h := (tick_poll_recording Config.default (fun _ => Except.ok [sampleMsg])
    0 "W" SysState.start).1 [sampleMsg] rfl
  rw [h]
  rfl

/-! ### Poll cursor and latest timestamp -/

/-- C5: on every tick the fetcher is invoked with the lower bound equal to
the derived poll cursor — the creation timestamp of the most recently
stored message — so a tick's outcome depends on the fetch oracle only
through its value at that cursor; messages fetched under a bound are
strictly after it; with no bound the fetch is unbounded (the whole space);
and an empty store yields no bound. -/
theorem poll_cursor_drives_fetch :
    (∀ (cfg : Config) (f g : Option String → Except FetchError (List MsgInput))
        (now : Nat) (wall : String) (s : SysState),
        f (latest_message_time s.db) = g (latest_message_time s.db) →
        tick cfg f now wall s = tick cfg g now wall s)
    ∧ (∀ (space : List RawMsg) (L : String) (m : MsgInput),
        m ∈ list_messages space (some L) → strLt L m.created_at = true)
    ∧ (∀ space, list_messages space none = (space.map normalizeMsg).reverse)
    ∧ (∀ db : Database, db.messages = [] → latest_message_time db = none) := by
  refine ⟨?_, ?_, ?_, ?_⟩
  · intro cfg f g now wall s h
    have hp : poll_fn f wall s.db = poll_fn g wall s.db := by
      unfold poll_fn
      rw [h]
    unfold tick
    rw [hp]
  · intro space L m hm
    simp only [list_messages, List.mem_reverse] at hm
    rcases List.mem_map.mp hm with ⟨r, hr, rfl⟩
    have := List.of_mem_filter hr
    simpa [normalizeMsg] using this
  · intro space
    rfl
  · intro db h
    simp [latest_message_time, h]

/-- Witness for C5: over an empty store two oracles agreeing at the
unbounded cursor produce the same tick, and a fetched message under the
bound 2024-01-01 is strictly newer. -/
theorem poll_cursor_drives_fetch_witness :
    tick Config.default (fun _ => Except.ok []) 0 "w" SysState.start =
      tick Config.default
        (fun o => match o with
          | none => Except.ok []
          | some _ => Except.error FetchError.other) 0 "w" SysState.start
    ∧ strLt "2024-01-01T00:00:00Z"
        (normalizeMsg ⟨"spaces/x/messages/2", "Bea", "", "yo",
          "2024-01-02T00:00:00Z"⟩).created_at = true := by
  constructor
  · exact poll_cursor_drives_fetch.1 Config.default (fun _ => Except.ok [])
      (fun o => match o with
        | none => Except.ok []
        | some _ => Except.error FetchError.other) 0 "w" SysState.start rfl
  · exact poll_cursor_drives_fetch.2.1
      [⟨"spaces/x/messages/2", "Bea", "", "yo", "2024-01-02T00:00:00Z"⟩]
      "2024-01-01T00:00:00Z"
      (normalizeMsg ⟨"spaces/x/messages/2", "Bea", "", "yo", "2024-01-02T00:00:00Z"⟩)
      (by decide)

/-- C6: `latest_message_time` is `none` exactly on an empty store, is an
upper bound attained by some stored message, and after upserting two
messages with creation timestamps T1 < T2 (distinct identities) into an
empty store it returns T2 in either insertion order. -/
theorem latest_message_time_is_max :
    (∀ db : Database, latest_message_time db = none ↔ db.messages = [])
    ∧ (∀ (db : Database) (L : String), latest_message_time db = some L →
        (∀ m ∈ db.messages, strLe m.created_at L = true)
        ∧ ∃ m ∈ db.messages, m.created_at = L)
    ∧ (∀ (db : Database) (m₁ m₂ : MsgInput) (now : String),
        db.messages = [] → m₁.id ≠ m₂.id →
        strLt m₁.created_at m₂.created_at = true →
        latest_message_time (upsert_messages now db [m₁, m₂]).1 = some m₂.created_at
        ∧ latest_message_time (upsert_messages now db [m₂, m₁]).1 = some m₂.created_at) := by
  refine ⟨?_, ?_, ?_⟩
  · intro db
    cases h : db.messages with
    | nil => simp [latest_message_time, h]
    | cons m0 rest => simp [latest_message_time, h]
  · intro db L h
    unfold latest_message_time at h
    cases hm : db.messages with
    | nil => rw [hm] at h; simp at h
    | cons m0 rest =>
      rw [hm] at h
      simp only [List.map_cons, Option.some.injEq] at h
      constructor
      · intro m hmem
        rw [← h]
        apply foldl_tmax_le
        rcases List.mem_cons.mp hmem with rfl | hmem
        · exact Or.inl rfl
        · exact Or.inr (List.mem_map_of_mem _ hmem)
      · rcases foldl_tmax_mem (rest.map (·.created_at)) m0.created_at with hc | hc
        · exact ⟨m0, List.mem_cons_self _ _, by rw [← h, hc]⟩
        · rcases List.mem_map.mp hc with ⟨m, hmem, hmc⟩
          exact ⟨m, List.mem_cons_of_mem _ hmem, by rw [← h, ← hmc]⟩
  · intro db m₁ m₂ now hempty hne hlt
    have hne' : m₂.id ≠ m₁.id := fun hh => hne hh.symm
    have hmsgs12 : (upsert_messages now db [m₁, m₂]).1.messages =
        [mkMessage now m₁, mkMessage now m₂] := by
      simp [upsert_messages, insertOrIgnoreMessage, mkMessage, hempty, hne]
    have hmsgs21 : (upsert_messages now db [m₂, m₁]).1.messages =
        [mkMessage now m₂, mkMessage now m₁] := by
      simp [upsert_messages, insertOrIgnoreMessage, mkMessage, hempty, hne']
    have hle : strLe m₁.created_at m₂.created_at = true := strLe_of_lt hlt
    have hnle : strLe m₂.created_at m₁.created_at = false := by
      unfold strLe
      rw [hlt]
      rfl
    constructor
    · simp only [latest_message_time, hmsgs12, List.map_cons, List.map_nil,
        List.foldl_cons, List.foldl_nil, Option.some.injEq, mkMessage]
      unfold tmax
      rw [hle]
      simp
    · simp only [latest_message_time, hmsgs21, List.map_cons, List.map_nil,
        List.foldl_cons, List.foldl_nil, Option.some.injEq, mkMessage]
      unfold tmax
      rw [hnle]
      simp

/-- Witness for C6: upserting timestamps 2024-01-01 and 2024-01-02 into a
fresh store in either order reports 2024-01-02 as the latest. -/
theorem latest_message_time_is_max_witness :
    latest_message_time (upsert_messages "f" Database.empty
      [⟨"a", "Ann", "", "x", "2024-01-01T00:00:00Z"⟩,
       ⟨"b", "Bea", "", "y", "2024-01-02T00:00:00Z"⟩]).1 = some "2024-01-02T00:00:00Z"
    ∧ latest_message_time (upsert_messages "f" Database.empty
      [⟨"b", "Bea", "", "y", "2024-01-02T00:00:00Z"⟩,
       ⟨"a", "Ann", "", "x", "2024-01-01T00:00:00Z"⟩]).1 = some "2024-01-02T00:00:00Z" := by
  have h := latest_message_time_is_max.2.2 Database.empty
    ⟨"a", "Ann", "", "x", "2024-01-01T00:00:00Z"⟩
    ⟨"b", "Bea", "", "y", "2024-01-02T00:00:00Z"⟩ "f" rfl (by decide) (by decide)
  exact ⟨h.1, h.2⟩

/-! ### Upsert idempotence and the inserted count -/

/-- An `INSERT OR IGNORE` that hits an existing id is a no-op. -/
theorem insertOrIgnore_pos (db : Database) (M : Message)
    (hc : db.messages.any (fun r => r.id == M.id) = true) :
    insertOrIgnoreMessage db M = db := by
  unfold insertOrIgnoreMessage
  rw [hc]
  simp

/-- An `INSERT OR IGNORE` of a fresh id appends the row and counts one
change. -/
theorem insertOrIgnore_neg (db : Database) (M : Message)
    (hc : db.messages.any (fun r => r.id == M.id) = false) :
    insertOrIgnoreMessage db M =
      { db with messages := db.messages ++ [M]
                totalChanges := db.totalChanges + 1 } := by
  unfold insertOrIgnoreMessage
  rw [hc]
  simp

/-- One `INSERT OR IGNORE` preserves distinctness of the stored ids. -/
theorem insertOrIgnore_nodup (db : Database) (M : Message)
    (h : (db.messages.map Message.id).Nodup) :
    ((insertOrIgnoreMessage db M).messages.map Message.id).Nodup := by
  cases hc : db.messages.any (fun r => r.id == M.id) with
  | true =>
    rw [insertOrIgnore_pos db M hc]
    exact h
  | false =>
    rw [insertOrIgnore_neg db M hc]
    simp only [List.map_append]
    refine List.Nodup.append h (List.nodup_singleton _) ?_
    intro x hx hx2
    rcases List.mem_map.mp hx with ⟨r, hr, hrid⟩
    rcases List.mem_singleton.mp hx2 with rfl
    have hall : ∀ r' ∈ db.messages, ¬(r'.id == M.id) = true := by
      intro r' hr' hbad
      have htrue : db.messages.any (fun r => r.id == M.id) = true :=
        List.any_eq_true.mpr ⟨r', hr', hbad⟩
      rw [hc] at htrue
      cases htrue
    apply hall r hr
    simp [hrid]

/-- The fold inside `upsert_messages` preserves distinctness of stored ids,
whatever the running counter. -/
theorem upsert_fold_nodup (now : String) :
    ∀ (msgs : List MsgInput) (db : Database) (c : Nat),
      (db.messages.map Message.id).Nodup →
      (((msgs.foldl
          (fun acc m =>
            let db' := insertOrIgnoreMessage acc.1 (mkMessage now m)
            (db', acc.2 + db'.totalChanges))
          (db, c)).1).messages.map Message.id).Nodup := by
  intro msgs
  induction msgs with
  | nil =>
    intro db c h
    exact h
  | cons m ms ih =>
    intro db c h
    simp only [List.foldl_cons]
    exact ih _ _ (insertOrIgnore_nodup db (mkMessage now m) h)

/-- Counterexample for C4 as stated: on a fresh connection, upserting one
message and then upserting the same message again returns an inserted
count of 1 — not 0 — for the second call, because the source accumulates
the connection's cumulative `total_changes` counter.  (No duplicate row is
created: the table still holds exactly the first call's row.) -/
theorem upsert_second_count_cex :
    (upsert_messages "t2" (upsert_messages "t1" Database.empty [sampleMsg]).1
        [sampleMsg]).2 = 1
    ∧ (upsert_messages "t2" (upsert_messages "t1" Database.empty [sampleMsg]).1
        [sampleMsg]).1.messages
      = (upsert_messages "t1" Database.empty [sampleMsg]).1.messages := by
  exact ⟨rfl, rfl⟩

/-- C4 (amended): upserting a message whose identity is already present
never creates a second row and never raises (the operation is a total
function): the database is returned unchanged; distinctness of stored ids
is preserved by every upsert; but the count returned for such a call is
the connection's cumulative `total_changes` value — the source's coarse
approximation — not zero. -/
theorem upsert_idempotent (now : String) (db : Database) (m : MsgInput)
    (h : m.id ∈ db.messages.map Message.id) :
    (upsert_messages now db [m]).1 = db
    ∧ (upsert_messages now db [m]).2 = db.totalChanges
    ∧ ∀ (now' : String) (msgs : List MsgInput),
        (db.messages.map Message.id).Nodup →
        ((upsert_messages now' db msgs).1.messages.map Message.id).Nodup := by
  have hid : db.messages.any (fun r => r.id == (mkMessage now m).id) = true := by
    rcases List.mem_map.mp h with ⟨r, hr, hrid⟩
    exact List.any_eq_true.mpr ⟨r, hr, by simp [mkMessage, hrid]⟩
  have hins : insertOrIgnoreMessage db (mkMessage now m) = db :=
    insertOrIgnore_pos db _ hid
  refine ⟨?_, ?_, ?_⟩
  · simp [upsert_messages, hins]
  · simp [upsert_messages, hins]
  · intro now' msgs hnd
    exact upsert_fold_nodup now' msgs db 0 hnd

/-- Witness for C4 (amended): re-upserting the sample message into the
store already holding it leaves the store unchanged and reports the
cumulative counter (1), and ids stay distinct. -/
theorem upsert_idempotent_witness :
    (upsert_messages "t2" (upsert_messages "t1" Database.empty [sampleMsg]).1
        [sampleMsg]).1 = (upsert_messages "t1" Database.empty [sampleMsg]).1
    ∧ (upsert_messages "t2" (upsert_messages "t1" Database.empty [sampleMsg]).1
        [sampleMsg]).2
      = (upsert_messages "t1" Database.empty [sampleMsg]).1.totalChanges := by
  have h := upsert_idempotent "t2" (upsert_messages "t1" Database.empty [sampleMsg]).1
    sampleMsg (by decide)
  exact ⟨h.1, h.2.1⟩

/-! ### Unread query versus unread count -/

/-- C10: when no read marker has been set, `get_unread_messages` returns at
most the 50 oldest stored messages in ascending `created_at` order (the
returned rows, together with some rest, are exactly the store, and every
returned row is no newer than every omitted one), while `unread_count`
returns the total number of stored rows; hence with more than 50 stored
messages the reported unread count exceeds the number of rows the unread
query returns. -/
theorem unread_query_bound (db : Database) (h : get_state db "read_marker" = none) :
    unread_count db = db.messages.length
    ∧ (get_unread_messages db).length = min 50 db.messages.length
    ∧ List.Sorted msgLe (get_unread_messages db)
    ∧ (∃ rest, ((get_unread_messages db) ++ rest).Perm db.messages
        ∧ ∀ x ∈ get_unread_messages db, ∀ y ∈ rest, msgLe x y)
    ∧ (50 < db.messages.length →
        (get_unread_messages db).length < unread_count db) := by
  have hfilter : db.messages.filter
      (fun m => passesSince none m && passesSender none m) = db.messages := by
    simp [passesSince, passesSender]
  have hu : get_unread_messages db =
      (List.insertionSort msgLe db.messages).take 50 := by
    simp only [get_unread_messages, h, get_messages, hfilter]
  have hsort : List.Sorted msgLe (List.insertionSort msgLe db.messages) :=
    List.sorted_insertionSort msgLe db.messages
  have hperm : (List.insertionSort msgLe db.messages).Perm db.messages :=
    List.perm_insertionSort msgLe db.messages
  have hlen : (List.insertionSort msgLe db.messages).length = db.messages.length :=
    hperm.length_eq
  have hcount : unread_count db = db.messages.length := by
    simp [unread_count, h]
  refine ⟨hcount, ?_, ?_, ?_, ?_⟩
  · rw [hu, List.length_take, hlen]
  · rw [hu]
    exact List.Pairwise.sublist (List.take_sublist 50 _) hsort
  · refine ⟨(List.insertionSort msgLe db.messages).drop 50, ?_, ?_⟩
    · rw [hu, List.take_append_drop]
      exact hperm
    · intro x hx y hy
      rw [hu] at hx
      have hs2 := hsort
      rw [← List.take_append_drop 50 (List.insertionSort msgLe db.messages)] at hs2
      exact (List.pairwise_append.mp hs2).2.2 x hx y hy
  · intro h50
    rw [hu, List.length_take, hlen, hcount]
    omega

/-- Witness for C10: a store of 51 rows with no marker reports 51 unread
but the unread query returns only 50 rows. -/
theorem unread_query_bound_witness :
    (get_unread_messages wideDb).length < unread_count wideDb :=
  (unread_query_bound wideDb rfl).2.2.2.2 (by decide)
